import Mathlib

/-!
Formal model of the BudgetMe prediction service's forecast-orchestration
pipeline (`prediction_api`), embedded shallowly in Lean 4.

Conventions of the embedding:
* Calendar dates are day indices (`ℤ`); a Python `datetime` difference in
  days becomes integer subtraction.
* Monetary amounts and all float arithmetic of the category forecaster,
  preprocessor and outlier moderator are modelled over `ℚ` (the code's
  float arithmetic, with exact rationals in place of IEEE doubles).
* The daily-to-monthly aggregator needs a square root, so it is modelled
  over `ℝ` with `Real.sqrt`.
* Category labels are free-text strings in the code; only equality of
  labels is ever used, so they are modelled by an arbitrary discrete
  label type (`ℕ`).
* Fallible code returns `Option` / `Except`.
-/

/-- Transaction type enum (`TransactionTypeEnum` in `models/schemas.py`):
the `type` field of a transaction is either `income` or `expense`. -/
inductive TxnType where
  | income
  | expense
deriving DecidableEq, Repr

/-- One transaction record as consumed by the forecaster
(`date`, `amount`, `type`, `category` of `TransactionData`).
The `description` field is never read by the pipeline and is omitted. -/
structure Txn where
  day : ℤ
  amount : ℚ
  ttype : TxnType
  category : Option ℕ
deriving DecidableEq, Repr

/-- One row of the preprocessed Prophet dataframe: `ds` (date), `y`
(net flow), and the `income` / `expenses` components
(`preprocess_transaction_data` in `models/prophet_forecaster.py`). -/
structure DailyEntry where
  ds : ℤ
  y : ℚ
  income : ℚ
  expenses : ℚ
deriving DecidableEq, Repr

/-- Smallest transaction day (`df['ds'].min()` of the preprocessed frame,
which equals the minimum transaction date). Zero on the empty list, which
the preprocessor rejects before ever taking a minimum. -/
def daysMin : List Txn → ℤ
  | [] => 0
  | t :: ts => ts.foldl (fun m u => min m u.day) t.day

/-- Largest transaction day (`df['ds'].max()`), dually to `daysMin`. -/
def daysMax : List Txn → ℤ
  | [] => 0
  | t :: ts => ts.foldl (fun m u => max m u.day) t.day

/-- Number of days between the extreme transaction dates
(`(max - min).days`), as a natural number. -/
def spanDays (txns : List Txn) : ℕ := (daysMax txns - daysMin txns).toNat

/-- Daily grouping step of `preprocess_transaction_data`: for one calendar
day, sum the amounts of that day's income transactions and of its expense
transactions, and record `y = income - expenses`. -/
def mkDailyEntry (txns : List Txn) (d : ℤ) : DailyEntry :=
  let income :=
    ((txns.filter fun t => decide (t.day = d ∧ t.ttype = TxnType.income)).map (·.amount)).sum
  let expenses :=
    ((txns.filter fun t => decide (t.day = d ∧ t.ttype = TxnType.expense)).map (·.amount)).sum
  ⟨d, income - expenses, income, expenses⟩

/-- Grouped daily rows, one per distinct transaction day in order of first
occurrence (`df['date'].dt.date.unique()` preserves first-occurrence
order). -/
def groupedDaily (txns : List Txn) : List DailyEntry :=
  ((txns.map (·.day)).dedup).map fun d => mkDailyEntry txns d

/-- Reindex lookup of one day: the row carrying that date if the grouped
frame has one, otherwise a row filled with zeros
(`reindex(full_date_range, fill_value=0)`). -/
def reindexEntry (entries : List DailyEntry) (d : ℤ) : DailyEntry :=
  match entries.find? fun e => decide (e.ds = d) with
  | some e => e
  | none => ⟨d, 0, 0, 0⟩

/-- The full inclusive date range `pd.date_range(min ds, max ds, freq='D')`
of a transaction list. -/
def fullRange (txns : List Txn) : List ℤ :=
  (List.range (spanDays txns + 1)).map fun (i : ℕ) => daysMin txns + (i : ℤ)

/-- The Time-Series Preprocessor `preprocess_transaction_data`: group the
transactions by calendar day, sort by date, and when more than one day is
present reindex over the full inclusive date range, filling absent days
with zeros.  The empty transaction list raises (`ValueError`), modelled as
`none`.  Amounts are rational here, so pandas' dropping of non-numeric
amounts (`to_numeric(errors='coerce')` + `dropna`) has no counterpart. -/
def preprocess_transaction_data (txns : List Txn) : Option (List DailyEntry) :=
  if txns = [] then none
  else
    let entries := List.insertionSort (fun a b => a.ds ≤ b.ds) (groupedDaily txns)
    if 1 < entries.length then
      some ((fullRange txns).map fun d => reindexEntry entries d)
    else some entries

/-- Arithmetic mean of a list of rationals (`Series.mean()`). -/
def listMean (ys : List ℚ) : ℚ := ys.sum / (ys.length : ℚ)

/-- Sample variance with one delta degree of freedom, the square of
pandas' `Series.std()` (ddof = 1). -/
def sampleVar (ys : List ℚ) : ℚ :=
  ((ys.map fun y => (y - listMean ys) ^ 2).sum) / ((ys.length : ℚ) - 1)

/-- Linear-interpolation quantile evaluation at fractional rank `pos` over
an (already sorted) list, matching pandas' default interpolation:
`x[k] + (x[k+1] - x[k]) * (pos - k)` with `k = ⌊pos⌋`. -/
def interpAt (s : List ℚ) (pos : ℚ) : ℚ :=
  s.getD (⌊pos⌋).toNat 0
    + (s.getD ((⌊pos⌋).toNat + 1) 0 - s.getD (⌊pos⌋).toNat 0) * (pos - ⌊pos⌋)

/-- pandas `Series.quantile(q)`: sort the values and interpolate at rank
`q * (n - 1)`. -/
def quantile (ys : List ℚ) (q : ℚ) : ℚ :=
  interpAt (List.insertionSort (· ≤ ·) ys) (q * ((ys.length : ℚ) - 1))

/-- Net-flow column of a preprocessed frame (`df['y']`). -/
def seriesY (s : List DailyEntry) : List ℚ := s.map (·.y)

/-- Outlier flag of `detect_outliers`: some day's z-score exceeds the
threshold.  The code computes `|y - mean| / std > threshold`; this is
expressed square-free as `(y - mean)² > threshold² · var`, which agrees
with the code for the nonnegative thresholds in use (and, at zero
standard deviation, with pandas' `NaN > threshold` being false). -/
def hasOutlier (s : List DailyEntry) (threshold : ℚ) : Bool :=
  s.any fun e =>
    decide ((e.y - listMean (seriesY s)) ^ 2 > threshold ^ 2 * sampleVar (seriesY s))

/-- The Outlier Moderator `detect_outliers`: series shorter than 3 rows
pass through; otherwise, when any z-score exceeds the threshold, every
`y` below the 5th percentile is raised to it and then every value above
the 95th percentile is lowered to it (the code's two sequential `.loc`
assignments); otherwise the series is returned unchanged. -/
def detect_outliers (s : List DailyEntry) (threshold : ℚ) : List DailyEntry :=
  if s.length < 3 then s
  else if hasOutlier s threshold then
    let lower_percentile := quantile (seriesY s) (5 / 100)
    let upper_percentile := quantile (seriesY s) (95 / 100)
    s.map fun e =>
      let y1 := if e.y < lower_percentile then lower_percentile else e.y
      { e with y := if y1 > upper_percentile then upper_percentile else y1 }
  else s

/-- Prophet seasonality modes (`SeasonalityModeEnum`). -/
inductive SeasonalityMode where
  | additive
  | multiplicative
deriving DecidableEq, Repr

/-- Month lengths of the non-leap year 2023, used to count the days of the
constant range `pd.date_range('2023-01-01', '2023-12-31', freq='D')`
appearing in `create_prophet_model`'s guard. -/
def monthLengths2023 : List ℕ := [31, 28, 31, 30, 31, 30, 31, 31, 30, 31, 30, 31]

/-- Length of `pd.date_range('2023-01-01', '2023-12-31', freq='D')`: the
number of days of 2023 (inclusive range). -/
def dateRangeDays2023 : ℕ := monthLengths2023.sum

/-- Configuration record produced by `create_prophet_model`: the Prophet
constructor arguments plus whether the custom ~30.5-day monthly
seasonality was added.  The guard in the code compares the length of a
fixed 2023 date range with 365 and inspects no property of the series
being fitted, which is why this model takes no series argument. -/
structure ProphetModelConfig where
  seasonality_mode : SeasonalityMode
  changepoint_prior_scale : ℚ
  seasonality_prior_scale : ℚ
  interval_width : ℚ
  monthly_seasonality : Bool
deriving DecidableEq, Repr

/-- The Forecast Engine Adapter's model construction
(`create_prophet_model`). -/
def create_prophet_model (mode : SeasonalityMode) : ProphetModelConfig :=
  { seasonality_mode := mode
    changepoint_prior_scale := 5 / 100
    seasonality_prior_scale := 10
    interval_width := 80 / 100
    monthly_seasonality := decide (dateRangeDays2023 > 365) }

/-- A daily forecast row of the Prophet output frame, as consumed by
`aggregate_daily_to_monthly` (`ds`, `yhat`, `yhat_upper`, `yhat_lower`,
`trend`, `seasonal`).  The date is split into year / month / day so that
`ds.dt.to_period('M')` becomes the projection onto `(year, month)`. -/
structure DailyPoint where
  year : ℤ
  month : ℤ
  dayOfMonth : ℤ
  yhat : ℝ
  yhat_upper : ℝ
  yhat_lower : ℝ
  trend : ℝ
  seasonal : ℝ

/-- One monthly aggregate produced by `aggregate_daily_to_monthly`
(the `month` label is the `(year, month)` period key). -/
structure MonthlyAgg where
  month : ℤ × ℤ
  predicted : ℝ
  upper : ℝ
  lower : ℝ
  trend : ℝ
  seasonal : ℝ
  confidence : ℝ
  data_points : ℕ

/-- Clamp to the unit interval, the code's `max(0.0, min(1.0, x))`. -/
noncomputable def clip01 (x : ℝ) : ℝ := max 0 (min 1 x)

/-- Period key of a daily point (`ds.dt.to_period('M')`). -/
def monthKey (p : DailyPoint) : ℤ × ℤ := (p.year, p.month)

/-- Lexicographic order on period keys, the ordering `groupby` uses to
emit its groups. -/
def keyLe (a b : ℤ × ℤ) : Prop := a.1 < b.1 ∨ (a.1 = b.1 ∧ a.2 ≤ b.2)

instance : DecidableRel keyLe := fun _ _ => instDecidableOr

/-- The distinct period keys of a forecast frame in ascending order
(`groupby('year_month')` iterates groups by sorted key). -/
def monthKeys (pts : List DailyPoint) : List (ℤ × ℤ) :=
  List.insertionSort keyLe ((pts.map monthKey).dedup)

/-- All rows of the frame belonging to one period key. -/
def monthGroup (pts : List DailyPoint) (k : ℤ × ℤ) : List DailyPoint :=
  pts.filter fun p => decide (monthKey p = k)

/-- Body of the `aggregate_daily_to_monthly` group loop: sum the daily
predictions, propagate the interval half-widths by root-sum-of-squares,
average the trend, sum the seasonal component, and derive the clipped
monthly confidence `1 - (width / |predicted|  if predicted ≠ 0  else 1)`. -/
noncomputable def aggregateMonthGroup (k : ℤ × ℤ) (g : List DailyPoint) : MonthlyAgg :=
  let monthly_predicted := (g.map (·.yhat)).sum
  let monthly_upper_std := Real.sqrt ((g.map fun p => (p.yhat_upper - p.yhat) ^ 2).sum)
  let monthly_lower_std := Real.sqrt ((g.map fun p => (p.yhat - p.yhat_lower) ^ 2).sum)
  let monthly_upper := monthly_predicted + monthly_upper_std
  let monthly_lower := monthly_predicted - monthly_lower_std
  let monthly_trend := (g.map (·.trend)).sum / (g.length : ℝ)
  let monthly_seasonal := (g.map (·.seasonal)).sum
  let confidence_width := monthly_upper - monthly_lower
  let monthly_confidence :=
    1 - (if monthly_predicted ≠ 0 then confidence_width / |monthly_predicted| else 1)
  { month := k
    predicted := monthly_predicted
    upper := monthly_upper
    lower := monthly_lower
    trend := monthly_trend
    seasonal := monthly_seasonal
    confidence := clip01 monthly_confidence
    data_points := g.length }

/-- The Daily→Monthly Aggregator `aggregate_daily_to_monthly` in
`routes/predictions.py`: group the frame by `(year, month)` and aggregate
each group. -/
noncomputable def aggregate_daily_to_monthly (pts : List DailyPoint) : List MonthlyAgg :=
  (monthKeys pts).map fun k => aggregateMonthGroup k (monthGroup pts k)

/-- Trend direction enum (`TrendEnum`). -/
inductive Trend where
  | increasing
  | decreasing
  | stable
deriving DecidableEq, Repr

/-- One category forecast record built by `get_category_forecasts`. -/
structure CatForecast where
  historical_average : ℚ
  predicted_average : ℚ
  confidence : ℚ
  trend : Trend
  data_points : ℕ
  is_expense : Bool
deriving DecidableEq, Repr

/-- The transactions of one category (`df[df['category'] == category]`). -/
def categoryTxns (txns : List Txn) (c : ℕ) : List Txn :=
  txns.filter fun t => decide (t.category = some c)

/-- A category is treated as expense when any of its transactions is an
expense (`(category_data['type'] == 'expense').any()`). -/
def catIsExpense (cd : List Txn) : Bool :=
  cd.any fun t => decide (t.ttype = TxnType.expense)

/-- Historical month count of a category:
`max(1, date_range_days / 30)`, where the date range is that of the
category's preprocessed frame, whose extreme `ds` values are the
category's own extreme transaction dates. -/
def historicalMonths (cd : List Txn) : ℚ :=
  max 1 (((daysMax cd - daysMin cd : ℤ) : ℚ) / 30)

/-- Historical total of a category: absolute value of the summed amounts
for expense categories, the plain sum for income categories. -/
def historicalTotal (cd : List Txn) : ℚ :=
  if catIsExpense cd then |(cd.map (·.amount)).sum| else (cd.map (·.amount)).sum

/-- `historical_monthly_avg = historical_total / historical_months`. -/
def historicalMonthlyAvg (cd : List Txn) : ℚ :=
  historicalTotal cd / historicalMonths cd

/-- Forecast period in months: `max(1, periods / 30)`. -/
def forecastMonths (periods : ℕ) : ℚ := max 1 ((periods : ℚ) / 30)

/-- Predicted monthly average of a category: the historical average grown
by `annual_growth_rate = 0.025` per year applied monthly over the
forecast period, capped at 3% annual growth
(`min(hist * (1 + (0.025/12) * m), hist * (1 + 0.03 * (m/12)))`). -/
def predictedMonthlyAvg (cd : List Txn) (periods : ℕ) : ℚ :=
  let hist := historicalMonthlyAvg cd
  min (hist * (1 + 25 / 1000 / 12 * forecastMonths periods))
    (hist * (1 + 3 / 100 * (forecastMonths periods / 12)))

/-- Relative growth between predicted and historical monthly averages,
zero when the historical average is not positive. -/
def growthRate (cd : List Txn) (periods : ℕ) : ℚ :=
  if 0 < historicalMonthlyAvg cd then
    (predictedMonthlyAvg cd periods - historicalMonthlyAvg cd) / historicalMonthlyAvg cd
  else 0

/-- Trend classification at the ±5% threshold
(`increasing` above +0.05, `decreasing` below −0.05, else `stable`). -/
def trendOf (g : ℚ) : Trend :=
  if g > 5 / 100 then Trend.increasing
  else if g < -(5 / 100) then Trend.decreasing
  else Trend.stable

/-- The per-category forecast record built inside the
`get_category_forecasts` loop (before reconciliation). -/
def categoryForecast (txns : List Txn) (periods : ℕ) (c : ℕ) : CatForecast :=
  let cd := categoryTxns txns c
  { historical_average := historicalMonthlyAvg cd
    predicted_average := predictedMonthlyAvg cd periods
    confidence := min (95 / 100) (60 / 100 + (cd.length : ℚ) / 100)
    trend := trendOf (growthRate cd periods)
    data_points := cd.length
    is_expense := catIsExpense cd }

/-- Total predicted monthly average over the expense categories of a
forecast table (`sum(cat['predicted_average'] for cat in
expense_categories)`). -/
def expensePredSum (fs : List (ℕ × CatForecast)) : ℚ :=
  ((fs.filter fun p => p.2.is_expense).map fun p => p.2.predicted_average).sum

/-- Scaling of one table entry during reconciliation: expense categories
get `predicted_average` multiplied by the scaling factor and their trend
re-evaluated to `stable` when the post-scaling relative change falls
within ±5%; other entries are untouched. -/
def applyScaling (k : ℚ) (p : ℕ × CatForecast) : ℕ × CatForecast :=
  if p.2.is_expense then
    let newPred := p.2.predicted_average * k
    let newGrowth := (newPred - p.2.historical_average) / p.2.historical_average
    (p.1, { p.2 with
      predicted_average := newPred
      trend := if |newGrowth| < 5 / 100 then Trend.stable else p.2.trend })
  else p

/-- Reconciliation step of `get_category_forecasts`: when a (truthy)
monthly income prediction is supplied and expense categories exist and
their predicted total exceeds 90% of that income, scale every expense
category by `(income * 0.90) / total`.  Note `if monthly_income_prediction`
is Python truthiness, so a supplied income of `0` skips reconciliation. -/
def reconcile (income? : Option ℚ) (fs : List (ℕ × CatForecast)) : List (ℕ × CatForecast) :=
  match income? with
  | none => fs
  | some inc =>
    if inc = 0 then fs
    else if (fs.filter fun p => p.2.is_expense).isEmpty then fs
    else
      let total_predicted_expenses := expensePredSum fs
      let max_reasonable_expenses := inc * (90 / 100)
      if max_reasonable_expenses < total_predicted_expenses then
        fs.map (applyScaling (max_reasonable_expenses / total_predicted_expenses))
      else fs

/-- Distinct non-null categories in first-occurrence order
(`df['category'].unique()` with `isna` entries skipped). -/
def categoriesOf (txns : List Txn) : List ℕ :=
  (txns.filterMap (·.category)).dedup

/-- The Category Forecaster `get_category_forecasts`: one forecast per
distinct non-null category with at least 7 transactions, followed by the
income reconciliation step.  The result is the association list backing
the Python dict (insertion order, unique keys). -/
def get_category_forecasts (txns : List Txn) (periods : ℕ) (income? : Option ℚ) :
    List (ℕ × CatForecast) :=
  let base := (categoriesOf txns).filterMap fun c =>
    if (categoryTxns txns c).length < 7 then none
    else some (c, categoryForecast txns periods c)
  reconcile income? base

/-- Supported forecast timeframes (`TimeframeEnum`). -/
inductive TimeframeEnum where
  | months_3
  | months_6
  | year_1
deriving DecidableEq, Repr

/-- `get_timeframe_days` of `models/schemas.py`. -/
def get_timeframe_days : TimeframeEnum → ℕ
  | TimeframeEnum.months_3 => 90
  | TimeframeEnum.months_6 => 180
  | TimeframeEnum.year_1 => 365

/-- Usage state as seen by the route (`UsageStatus`): current and maximum
counts plus the exceeded flag. -/
structure UsageInfo where
  currentUsage : ℕ
  maxUsage : ℕ
  exceeded : Bool
deriving DecidableEq, Repr

/-- Typed failures of the prediction route (`utils/exceptions.py`):
`InsufficientDataError` carries the required and available counts,
`UsageLimitError` the current and maximum usage. -/
inductive PredError where
  | insufficientData (required available : ℕ)
  | usageLimit (current maxUsage : ℕ)
  | predictionGeneration
deriving DecidableEq, Repr

/-- Validation and model-training prefix of the route handler
`generate_predictions` in `routes/predictions.py`, parametrised over the
external model-fitting capability `fitModel` so that independence from
fitting is expressible: transaction lists shorter than 7 fail with
`InsufficientData(7, available)` before the usage check and before any
fitting; then the usage limit is enforced; then the data is preprocessed
and (mirroring `train_model`'s own minimum re-checked by the route as
`InsufficientData(30, available)`) handed to outlier moderation and the
fitting capability. -/
def generate_predictions {α : Type} (fitModel : List DailyEntry → Except PredError α)
    (usage : UsageInfo) (_tf : TimeframeEnum) (txns : List Txn) : Except PredError α :=
  if txns.length < 7 then Except.error (PredError.insufficientData 7 txns.length)
  else if usage.exceeded then
    Except.error (PredError.usageLimit usage.currentUsage usage.maxUsage)
  else
    match preprocess_transaction_data txns with
    | none => Except.error PredError.predictionGeneration
    | some s =>
      if s.length < 7 then Except.error (PredError.insufficientData 30 txns.length)
      else fitModel (detect_outliers s 3)

/-! ### Helper lemmas about the reconciliation step -/

/-- Scaling an entry never changes its category key. -/
theorem applyScaling_fst (k : ℚ) (p : ℕ × CatForecast) : (applyScaling k p).1 = p.1 := by
  cases h : p.2.is_expense <;> simp [applyScaling, h]

/-- Scaling an entry never changes its `is_expense` flag. -/
theorem applyScaling_is_expense (k : ℚ) (p : ℕ × CatForecast) :
    (applyScaling k p).2.is_expense = p.2.is_expense := by
  cases h : p.2.is_expense <;> simp [applyScaling, h]

/-- Scaling an entry never changes its `historical_average`. -/
theorem applyScaling_historical (k : ℚ) (p : ℕ × CatForecast) :
    (applyScaling k p).2.historical_average = p.2.historical_average := by
  cases h : p.2.is_expense <;> simp [applyScaling, h]

/-- Scaling an entry never changes its `confidence`. -/
theorem applyScaling_confidence (k : ℚ) (p : ℕ × CatForecast) :
    (applyScaling k p).2.confidence = p.2.confidence := by
  cases h : p.2.is_expense <;> simp [applyScaling, h]

/-- Scaling an entry never changes its `data_points`. -/
theorem applyScaling_data_points (k : ℚ) (p : ℕ × CatForecast) :
    (applyScaling k p).2.data_points = p.2.data_points := by
  cases h : p.2.is_expense <;> simp [applyScaling, h]

/-- Non-expense entries pass through the scaling loop untouched. -/
theorem applyScaling_of_not_expense (k : ℚ) (p : ℕ × CatForecast)
    (h : p.2.is_expense = false) : applyScaling k p = p := by
  simp [applyScaling, h]

/-- Expense entries get their `predicted_average` multiplied by the
scaling factor. -/
theorem applyScaling_predicted (k : ℚ) (p : ℕ × CatForecast)
    (h : p.2.is_expense = true) :
    (applyScaling k p).2.predicted_average = p.2.predicted_average * k := by
  simp [applyScaling, h]

/-- Unfolding of the expense prediction total over a cons cell. -/
theorem expensePredSum_cons (p : ℕ × CatForecast) (t : List (ℕ × CatForecast)) :
    expensePredSum (p :: t)
      = (if p.2.is_expense then p.2.predicted_average else 0) + expensePredSum t := by
  unfold expensePredSum
  cases h : p.2.is_expense <;> simp [List.filter_cons, h]

/-- Scaling the whole table multiplies the expense prediction total by the
scaling factor. -/
theorem expensePredSum_map_applyScaling (k : ℚ) (fs : List (ℕ × CatForecast)) :
    expensePredSum (fs.map (applyScaling k)) = k * expensePredSum fs := by
  induction fs with
  | nil => simp [expensePredSum]
  | cons p t ih =>
    rw [List.map_cons, expensePredSum_cons, expensePredSum_cons, ih]
    cases h : p.2.is_expense with
    | true =>
      simp only [applyScaling_is_expense, h, applyScaling_predicted k p h, if_pos]
      ring
    | false =>
      simp [applyScaling_is_expense, h]

/-- The expense prediction total vanishes when the table has no expense
entries. -/
theorem expensePredSum_of_no_expense (fs : List (ℕ × CatForecast))
    (h : (fs.filter fun p => p.2.is_expense).isEmpty) : expensePredSum fs = 0 := by
  unfold expensePredSum
  rw [List.isEmpty_iff] at h
  simp [h]

/-- Reconciliation with an over-limit expense total reduces to the scaling
map. -/
theorem reconcile_over (inc : ℚ) (fs : List (ℕ × CatForecast))
    (h0 : inc ≠ 0)
    (hemp : ¬ (fs.filter fun p => p.2.is_expense).isEmpty = true)
    (hover : inc * (90 / 100) < expensePredSum fs) :
    reconcile (some inc) fs
      = fs.map (applyScaling (inc * (90 / 100) / expensePredSum fs)) := by
  simp [reconcile, h0, hemp, hover]

/-! ### C6 — monthly seasonality guard -/

/-- C6: the claim says `create_prophet_model` layers a custom ~30.5-day
monthly seasonal component on top of the yearly one exactly when the
historical span of the fitted series exceeds one year.  In the code the
guard is `len(pd.date_range('2023-01-01', '2023-12-31', freq='D')) > 365`,
a constant `365 > 365` that inspects no property of the series at all, so
the monthly component is never added — for series spanning more than a
year just as for any other: the configuration is a constant function of
the seasonality mode, falsifying the claim for every long-span series. -/
theorem C6_monthly_seasonality_never_added (mode : SeasonalityMode) :
    (create_prophet_model mode).monthly_seasonality = false := rfl

/-! ### C7 — insufficient data rejected before fitting -/

/-- C7: a call to the pipeline entry point with fewer than 7 transactions
fails with `InsufficientData(required = 7, available = count)`.  The
result is the same for every fitting capability `fitModel` and every
usage state, which expresses that the failure happens before any
model-fitting attempt (and before the usage check). -/
theorem C7_insufficient_data_rejected {α : Type}
    (fitModel : List DailyEntry → Except PredError α) (usage : UsageInfo)
    (tf : TimeframeEnum) (txns : List Txn) (h : txns.length < 7) :
    generate_predictions fitModel usage tf txns
      = Except.error (PredError.insufficientData 7 txns.length) := by
  unfold generate_predictions
  rw [if_pos h]

/-- Concrete 5-transaction list for the C7 witness. -/
def exC7 : List Txn :=
  [⟨0, 100, TxnType.income, none⟩, ⟨1, 50, TxnType.expense, none⟩,
   ⟨2, 50, TxnType.expense, some 0⟩, ⟨3, 80, TxnType.income, none⟩,
   ⟨4, 20, TxnType.expense, none⟩]

/-- Witness for C7: the concrete 5-transaction list is rejected with
`InsufficientData(7, 5)`, whatever the fitting capability would do. -/
theorem C7_insufficient_data_rejected_witness :
    generate_predictions (fun _ => Except.ok ()) ⟨0, 5, false⟩
        TimeframeEnum.months_3 exC7
      = Except.error (PredError.insufficientData 7 5) :=
  C7_insufficient_data_rejected (fun _ => Except.ok ()) ⟨0, 5, false⟩
    TimeframeEnum.months_3 exC7 (by decide)

/-! ### C8 — reconciliation is the identity under the income ceiling -/

/-- C8: when a predicted monthly income is supplied but the expense
categories' predicted total is already at most 90% of it, the
reconciliation step changes nothing: every forecast record (in
particular every `predicted_average`) is returned exactly as it was. -/
theorem C8_reconciliation_identity (inc : ℚ) (fs : List (ℕ × CatForecast))
    (h : expensePredSum fs ≤ inc * (90 / 100)) :
    reconcile (some inc) fs = fs := by
  unfold reconcile
  by_cases h0 : inc = 0
  · simp [h0]
  · by_cases hemp : (fs.filter fun p => p.2.is_expense).isEmpty
    · simp [h0, hemp]
    · simp [h0, hemp, not_lt.mpr h]

/-- Concrete forecast table for the C8 witness: two expense categories
with predicted monthly averages 600 and 500. -/
def fsC8 : List (ℕ × CatForecast) :=
  [(0, ⟨550, 600, 1, Trend.stable, 10, true⟩),
   (1, ⟨460, 500, 1, Trend.stable, 9, true⟩)]

/-- Witness for C8: with predicted expense total 1100 and supplied income
2000 (ceiling 1800), reconciliation returns the table unchanged. -/
theorem C8_reconciliation_identity_witness : reconcile (some 2000) fsC8 = fsC8 :=
  C8_reconciliation_identity 2000 fsC8 (by norm_num [fsC8, expensePredSum])

/-! ### C1 — reconciliation scales expenses by a common factor -/

/-- C1: when a positive monthly income prediction is supplied and the
expense categories' predicted total exceeds 90% of it, reconciliation
multiplies every expense category's `predicted_average` by the single
common factor `(income · 0.90) / total`, and afterwards the expense
prediction total is at most 90% of the income (the proof shows it lands
exactly on the ceiling). -/
theorem C1_reconciliation_scaling (inc : ℚ) (fs : List (ℕ × CatForecast))
    (hpos : 0 < inc) (hover : inc * (90 / 100) < expensePredSum fs) :
    List.Forall₂ (fun q p => p.2.is_expense = true →
        q.2.predicted_average
          = p.2.predicted_average * (inc * (90 / 100) / expensePredSum fs))
      (reconcile (some inc) fs) fs
    ∧ expensePredSum (reconcile (some inc) fs) ≤ inc * (90 / 100) := by
  have hsumpos : 0 < expensePredSum fs :=
    lt_trans (by positivity) hover
  have hemp : ¬ (fs.filter fun p => p.2.is_expense).isEmpty = true := by
    intro hempty
    rw [expensePredSum_of_no_expense fs hempty] at hsumpos
    exact lt_irrefl 0 hsumpos
  have hred := reconcile_over inc fs hpos.ne' hemp hover
  constructor
  · rw [hred, List.forall₂_map_left_iff]
    refine List.forall₂_same.mpr fun p _ hexp => ?_
    exact applyScaling_predicted _ p hexp
  · rw [hred, expensePredSum_map_applyScaling,
      div_mul_cancel₀ _ hsumpos.ne']

/-- Concrete forecast table for the C1 witness: expense predictions 600
and 500 as in the spec's worked example. -/
def fsC1 : List (ℕ × CatForecast) :=
  [(0, ⟨550, 600, 1, Trend.stable, 10, true⟩),
   (1, ⟨460, 500, 1, Trend.stable, 9, true⟩)]

/-- Witness for C1, the spec's worked example: predictions 600 and 500
(total 1100) against income 1000; each expense category is scaled by
`900/1100` and the post-reconciliation total is at most 900. -/
theorem C1_reconciliation_scaling_witness :
    List.Forall₂ (fun q p => p.2.is_expense = true →
        q.2.predicted_average
          = p.2.predicted_average * (1000 * (90 / 100) / expensePredSum fsC1))
      (reconcile (some 1000) fsC1) fsC1
    ∧ expensePredSum (reconcile (some 1000) fsC1) ≤ 1000 * (90 / 100) :=
  C1_reconciliation_scaling 1000 fsC1 (by norm_num)
    (by norm_num [fsC1, expensePredSum])

/-! ### C10 — reconciliation only touches expense predictions and trends -/

/-- Field-frame relation of the reconciliation step: keys line up, the
`historical_average`, `confidence`, `data_points` and `is_expense` fields
are untouched, and non-expense entries are returned verbatim. -/
def frameRel (q p : ℕ × CatForecast) : Prop :=
  q.1 = p.1 ∧
  q.2.historical_average = p.2.historical_average ∧
  q.2.confidence = p.2.confidence ∧
  q.2.data_points = p.2.data_points ∧
  q.2.is_expense = p.2.is_expense ∧
  (p.2.is_expense = false → q = p)

/-- C10: reconciliation modifies only the `predicted_average` and `trend`
fields, and only of expense categories: income entries are unchanged
records, and the `historical_average`, `confidence`, `data_points` and
`is_expense` fields of every entry are unchanged.  The hypothesis records
the schema invariant `amount > 0` under which every expense category has
a nonzero historical average (in the code a zero one would raise
`ZeroDivisionError` in the scaling loop rather than produce a table). -/
theorem C10_reconciliation_frame (income? : Option ℚ) (fs : List (ℕ × CatForecast))
    (_hhist : ∀ p ∈ fs, p.2.is_expense = true → p.2.historical_average ≠ 0) :
    List.Forall₂ frameRel (reconcile income? fs) fs := by
  have hrefl : List.Forall₂ frameRel fs fs :=
    List.forall₂_same.mpr fun p _ => ⟨rfl, rfl, rfl, rfl, rfl, fun _ => rfl⟩
  cases income? with
  | none => exact hrefl
  | some inc =>
    by_cases h0 : inc = 0
    · simpa [reconcile, h0] using hrefl
    · by_cases hemp : (fs.filter fun p => p.2.is_expense).isEmpty
      · simpa [reconcile, h0, hemp] using hrefl
      · by_cases hover : inc * (90 / 100) < expensePredSum fs
        · rw [reconcile_over inc fs h0 hemp hover, List.forall₂_map_left_iff]
          refine List.forall₂_same.mpr fun p _ => ?_
          exact ⟨applyScaling_fst _ p, applyScaling_historical _ p,
            applyScaling_confidence _ p, applyScaling_data_points _ p,
            applyScaling_is_expense _ p, fun hne => applyScaling_of_not_expense _ p hne⟩
        · simpa [reconcile, h0, hemp, hover] using hrefl

/-- Concrete forecast table for the C10 witness: one expense and one
income category, with an income prediction low enough to trigger
scaling. -/
def fsC10 : List (ℕ × CatForecast) :=
  [(0, ⟨500, 600, 1, Trend.stable, 10, true⟩),
   (1, ⟨100, 120, 1, Trend.stable, 8, false⟩)]

/-- Witness for C10: scaling is triggered (600 > 90% of 100), yet all
frame fields survive and the income entry is returned verbatim. -/
theorem C10_reconciliation_frame_witness :
    List.Forall₂ frameRel (reconcile (some 100) fsC10) fsC10 :=
  C10_reconciliation_frame (some 100) fsC10
    (by
      intro p hp _
      simp only [fsC10, List.mem_cons, List.mem_singleton] at hp
      rcases hp with rfl | rfl | h
      · norm_num
      · norm_num
      · cases h)

/-! ### C2 — monthly aggregation formulas -/

/-- The spec's synthetic 3-day sequence: one calendar month with
`predicted = [10, 20, 30]`, `upper = [12, 23, 33]`, `lower = [8, 17, 27]`. -/
noncomputable def ptsC2 : List DailyPoint :=
  [⟨2025, 1, 1, 10, 12, 8, 0, 0⟩,
   ⟨2025, 1, 2, 20, 23, 17, 0, 0⟩,
   ⟨2025, 1, 3, 30, 33, 27, 0, 0⟩]

/-- C2: within each monthly group the aggregator returns
`predicted_total = Σ predicted`,
`upper = predicted_total + sqrt(Σ (upper_i − predicted_i)²)` and
`lower = predicted_total − sqrt(Σ (predicted_i − lower_i)²)`; and on the
spec's synthetic 3-day month the full pipeline produces one aggregate
with `predicted_total = 60`, `upper = 60 + sqrt 22` and
`lower = 60 − sqrt 22` (`22 = 4 + 9 + 9`). -/
theorem C2_monthly_aggregation :
    (∀ (k : ℤ × ℤ) (g : List DailyPoint),
        (aggregateMonthGroup k g).predicted = (g.map (·.yhat)).sum ∧
        (aggregateMonthGroup k g).upper
          = (g.map (·.yhat)).sum
            + Real.sqrt ((g.map fun p => (p.yhat_upper - p.yhat) ^ 2).sum) ∧
        (aggregateMonthGroup k g).lower
          = (g.map (·.yhat)).sum
            - Real.sqrt ((g.map fun p => (p.yhat - p.yhat_lower) ^ 2).sum))
    ∧ aggregate_daily_to_monthly ptsC2 = [aggregateMonthGroup (2025, 1) ptsC2]
    ∧ (aggregateMonthGroup (2025, 1) ptsC2).predicted = 60
    ∧ (aggregateMonthGroup (2025, 1) ptsC2).upper = 60 + Real.sqrt 22
    ∧ (aggregateMonthGroup (2025, 1) ptsC2).lower = 60 - Real.sqrt 22 := by
  refine ⟨fun k g => ⟨rfl, rfl, rfl⟩, ?_, ?_, ?_, ?_⟩
  · have h1 : monthKeys ptsC2 = [(2025, 1)] := by decide
    have h2 : monthGroup ptsC2 (2025, 1) = ptsC2 := rfl
    show (monthKeys ptsC2).map (fun k => aggregateMonthGroup k (monthGroup ptsC2 k))
      = [aggregateMonthGroup (2025, 1) ptsC2]
    rw [h1, List.map_cons, List.map_nil, h2]
  · show (ptsC2.map (·.yhat)).sum = 60
    simp [ptsC2]
    norm_num
  · show (ptsC2.map (·.yhat)).sum
        + Real.sqrt ((ptsC2.map fun p => (p.yhat_upper - p.yhat) ^ 2).sum)
      = 60 + Real.sqrt 22
    simp [ptsC2]
    norm_num
  · show (ptsC2.map (·.yhat)).sum
        - Real.sqrt ((ptsC2.map fun p => (p.yhat - p.yhat_lower) ^ 2).sum)
      = 60 - Real.sqrt 22
    simp [ptsC2]
    norm_num

/-! ### C4 — monthly confidence formula -/

/-- One-day month whose predicted total is strictly between 0 and 1:
`predicted = 1/2`, `upper = 4/5`, `lower = 3/10`. -/
noncomputable def ptsC4 : List DailyPoint :=
  [⟨2025, 1, 1, 1/2, 4/5, 3/10, 0, 0⟩]

/-- Evaluation of the aggregation pipeline on the one-day frame `ptsC4`. -/
theorem aggregate_ptsC4_eval :
    aggregate_daily_to_monthly ptsC4 = [aggregateMonthGroup (2025, 1) ptsC4] := by
  have h1 : monthKeys ptsC4 = [(2025, 1)] := by decide
  have h2 : monthGroup ptsC4 (2025, 1) = ptsC4 := rfl
  show (monthKeys ptsC4).map (fun k => aggregateMonthGroup k (monthGroup ptsC4 k))
    = [aggregateMonthGroup (2025, 1) ptsC4]
  rw [h1, List.map_cons, List.map_nil, h2]

/-- The concrete field values of the `ptsC4` aggregate:
`predicted = 1/2`, `upper = 1/2 + 3/10`, `lower = 1/2 - 1/5`, and the
code's confidence `clip(1 - width/|predicted|) = clip(1 - (6/10)/(1/2)) = 0`. -/
theorem aggregate_ptsC4_fields :
    (aggregateMonthGroup (2025, 1) ptsC4).predicted = 1 / 2 ∧
    (aggregateMonthGroup (2025, 1) ptsC4).upper = 4 / 5 ∧
    (aggregateMonthGroup (2025, 1) ptsC4).lower = 3 / 10 ∧
    (aggregateMonthGroup (2025, 1) ptsC4).confidence = 0 := by
  have hpred : (aggregateMonthGroup (2025, 1) ptsC4).predicted = 1 / 2 := by
    show (ptsC4.map (·.yhat)).sum = 1 / 2
    simp [ptsC4]
  have hup : Real.sqrt ((ptsC4.map fun p => (p.yhat_upper - p.yhat) ^ 2).sum) = 3 / 10 := by
    have h : ((ptsC4.map fun p => (p.yhat_upper - p.yhat) ^ 2).sum) = ((3:ℝ) / 10) ^ 2 := by
      simp [ptsC4]
      norm_num
    rw [h, Real.sqrt_sq (by norm_num)]
  have hlo : Real.sqrt ((ptsC4.map fun p => (p.yhat - p.yhat_lower) ^ 2).sum) = 1 / 5 := by
    have h : ((ptsC4.map fun p => (p.yhat - p.yhat_lower) ^ 2).sum) = ((1:ℝ) / 5) ^ 2 := by
      simp [ptsC4]
      norm_num
    rw [h, Real.sqrt_sq (by norm_num)]
  have hupper : (aggregateMonthGroup (2025, 1) ptsC4).upper = 4 / 5 := by
    show (ptsC4.map (·.yhat)).sum
        + Real.sqrt ((ptsC4.map fun p => (p.yhat_upper - p.yhat) ^ 2).sum) = 4 / 5
    rw [hup]
    simp [ptsC4]
    norm_num
  have hlower : (aggregateMonthGroup (2025, 1) ptsC4).lower = 3 / 10 := by
    show (ptsC4.map (·.yhat)).sum
        - Real.sqrt ((ptsC4.map fun p => (p.yhat - p.yhat_lower) ^ 2).sum) = 3 / 10
    rw [hlo]
    simp [ptsC4]
    norm_num
  refine ⟨hpred, hupper, hlower, ?_⟩
  have hconf : (aggregateMonthGroup (2025, 1) ptsC4).confidence
      = clip01 (1 - (if (aggregateMonthGroup (2025, 1) ptsC4).predicted ≠ 0 then
          ((aggregateMonthGroup (2025, 1) ptsC4).upper
            - (aggregateMonthGroup (2025, 1) ptsC4).lower)
            / |(aggregateMonthGroup (2025, 1) ptsC4).predicted| else 1)) := rfl
  rw [hconf, hpred, hupper, hlower]
  rw [if_pos (by norm_num), show |(1:ℝ)/2| = 1/2 by norm_num]
  unfold clip01
  norm_num

/-- C4 counterexample: the claim's formula
`confidence = clip(1 − (upper−lower)/max(1,|predicted_total|), 0, 1)` fails
on the code.  On a one-day month with `predicted_total = 1/2` (so
`max(1, |predicted_total|) = 1` while the code divides by
`|predicted_total| = 1/2`), the code yields confidence `0` but the claimed
formula yields `1/2`. -/
theorem C4_confidence_counterexample :
    ¬ (∀ a ∈ aggregate_daily_to_monthly ptsC4,
        a.confidence = clip01 (1 - (a.upper - a.lower) / max 1 |a.predicted|)) := by
  intro hclaim
  have hmem : aggregateMonthGroup (2025, 1) ptsC4 ∈ aggregate_daily_to_monthly ptsC4 := by
    rw [aggregate_ptsC4_eval]; exact List.mem_singleton.mpr rfl
  have h := hclaim _ hmem
  obtain ⟨hpred, hupper, hlower, hconf⟩ := aggregate_ptsC4_fields
  rw [hconf, hpred, hupper, hlower] at h
  unfold clip01 at h
  rw [show |(1:ℝ)/2| = 1/2 by norm_num, show max (1:ℝ) (1/2) = 1 by norm_num] at h
  norm_num at h

/-- C4 (amended): for every monthly aggregate produced by
`aggregate_daily_to_monthly`, the monthly confidence equals
`clip(1 − (width/|predicted_total|  if predicted_total ≠ 0  else 1), 0, 1)`
with `width = upper_bound − lower_bound` — i.e. the divisor is
`|predicted_total|` itself (guarded against zero), not
`max(1, |predicted_total|)` as the claim stated. -/
theorem C4_confidence_formula (pts : List DailyPoint) (a : MonthlyAgg)
    (ha : a ∈ aggregate_daily_to_monthly pts) :
    a.confidence = clip01 (1 - (if a.predicted ≠ 0 then
      (a.upper - a.lower) / |a.predicted| else 1)) := by
  obtain ⟨k, _, rfl⟩ := List.mem_map.mp ha
  rfl

/-- Witness for the amended C4 on the concrete one-day frame `ptsC4`. -/
theorem C4_confidence_formula_witness :
    (aggregateMonthGroup (2025, 1) ptsC4).confidence
      = clip01 (1 - (if (aggregateMonthGroup (2025, 1) ptsC4).predicted ≠ 0 then
          ((aggregateMonthGroup (2025, 1) ptsC4).upper
              - (aggregateMonthGroup (2025, 1) ptsC4).lower)
            / |(aggregateMonthGroup (2025, 1) ptsC4).predicted| else 1)) :=
  C4_confidence_formula ptsC4 (aggregateMonthGroup (2025, 1) ptsC4)
    (by rw [aggregate_ptsC4_eval]; exact List.mem_singleton.mpr rfl)

/-! ### C5 — outlier clamping bounds -/

/-- Positional default access agrees with `get` inside the list. -/
theorem getD_eq_get {α : Type} (l : List α) (d : α) (i : ℕ) (h : i < l.length) :
    l.getD i d = l.get ⟨i, h⟩ := by
  simp [List.getD_eq_getElem?_getD, List.getElem?_eq_getElem h]

/-- On a sorted list, positional access is monotone in the index. -/
theorem sorted_getD_mono (s : List ℚ) (hs : s.Sorted (· ≤ ·)) (i j : ℕ)
    (hij : i ≤ j) (hj : j < s.length) : s.getD i 0 ≤ s.getD j 0 := by
  have hi : i < s.length := lt_of_le_of_lt hij hj
  rw [getD_eq_get s 0 i hi, getD_eq_get s 0 j hj]
  rcases lt_or_eq_of_le hij with hlt | rfl
  · exact List.pairwise_iff_get.mp hs ⟨i, hi⟩ ⟨j, hj⟩ hlt
  · exact le_refl _

/-- The interpolated value at a nonnegative fractional rank is at least
the sorted value at the rank's floor. -/
theorem interpAt_ge (s : List ℚ) (hs : s.Sorted (· ≤ ·)) (pos : ℚ)
    (_h0 : 0 ≤ pos) (hk : (⌊pos⌋).toNat + 1 < s.length) :
    s.getD (⌊pos⌋).toNat 0 ≤ interpAt s pos := by
  unfold interpAt
  have hyx : s.getD (⌊pos⌋).toNat 0 ≤ s.getD ((⌊pos⌋).toNat + 1) 0 :=
    sorted_getD_mono s hs _ _ (Nat.le_succ _) hk
  have hf : 0 ≤ pos - ⌊pos⌋ := sub_nonneg.mpr (Int.floor_le pos)
  nlinarith [mul_nonneg (sub_nonneg.mpr hyx) hf]

/-- The interpolated value at a fractional rank is at most the sorted
value one past the rank's floor. -/
theorem interpAt_le (s : List ℚ) (hs : s.Sorted (· ≤ ·)) (pos : ℚ)
    (_h0 : 0 ≤ pos) (hk : (⌊pos⌋).toNat + 1 < s.length) :
    interpAt s pos ≤ s.getD ((⌊pos⌋).toNat + 1) 0 := by
  unfold interpAt
  have hyx : s.getD (⌊pos⌋).toNat 0 ≤ s.getD ((⌊pos⌋).toNat + 1) 0 :=
    sorted_getD_mono s hs _ _ (Nat.le_succ _) hk
  have hf : 0 ≤ pos - ⌊pos⌋ := sub_nonneg.mpr (Int.floor_le pos)
  have hf1 : pos - ⌊pos⌋ ≤ 1 := by
    have := Int.lt_floor_add_one pos
    linarith
  nlinarith [mul_nonneg (sub_nonneg.mpr hyx) (sub_nonneg.mpr hf1)]

/-- Linear interpolation over a sorted list is monotone in the rank, for
ranks strictly inside the index range. -/
theorem interpAt_mono (s : List ℚ) (hs : s.Sorted (· ≤ ·)) (p1 p2 : ℚ)
    (h0 : 0 ≤ p1) (h12 : p1 ≤ p2) (h2 : p2 < (s.length : ℚ) - 1) :
    interpAt s p1 ≤ interpAt s p2 := by
  have h01 : (0:ℤ) ≤ ⌊p1⌋ := Int.floor_nonneg.mpr h0
  have h02 : (0:ℤ) ≤ ⌊p2⌋ := Int.floor_nonneg.mpr (le_trans h0 h12)
  have hk1c : (((⌊p1⌋).toNat : ℤ)) = ⌊p1⌋ := Int.toNat_of_nonneg h01
  have hk2c : (((⌊p2⌋).toNat : ℤ)) = ⌊p2⌋ := Int.toNat_of_nonneg h02
  have hff : ⌊p1⌋ ≤ ⌊p2⌋ := Int.floor_le_floor h12
  have hk12 : (⌊p1⌋).toNat ≤ (⌊p2⌋).toNat := Int.toNat_le_toNat hff
  have hfl2 : (⌊p2⌋ : ℚ) < (s.length : ℚ) - 1 := lt_of_le_of_lt (Int.floor_le p2) h2
  have hfl2i : ⌊p2⌋ < (s.length : ℤ) - 1 := by exact_mod_cast hfl2
  have hk2len : (⌊p2⌋).toNat + 1 < s.length := by omega
  have hk1len : (⌊p1⌋).toNat + 1 < s.length := by omega
  rcases lt_or_eq_of_le hk12 with hlt | heq
  · calc interpAt s p1 ≤ s.getD ((⌊p1⌋).toNat + 1) 0 := interpAt_le s hs p1 h0 hk1len
      _ ≤ s.getD (⌊p2⌋).toNat 0 := sorted_getD_mono s hs _ _ hlt (by omega)
      _ ≤ interpAt s p2 := interpAt_ge s hs p2 (le_trans h0 h12) hk2len
  · have hfe : ⌊p1⌋ = ⌊p2⌋ := by omega
    unfold interpAt
    rw [hfe]
    have hyx : s.getD (⌊p2⌋).toNat 0 ≤ s.getD ((⌊p2⌋).toNat + 1) 0 :=
      sorted_getD_mono s hs _ _ (Nat.le_succ _) hk2len
    have hmul : (s.getD ((⌊p2⌋).toNat + 1) 0 - s.getD (⌊p2⌋).toNat 0) * (p1 - ⌊p2⌋)
        ≤ (s.getD ((⌊p2⌋).toNat + 1) 0 - s.getD (⌊p2⌋).toNat 0) * (p2 - ⌊p2⌋) :=
      mul_le_mul_of_nonneg_left (by linarith) (sub_nonneg.mpr hyx)
    linarith

/-- The pre-moderation 5th percentile never exceeds the 95th. -/
theorem quantile_5_le_95 (ys : List ℚ) (h3 : 3 ≤ ys.length) :
    quantile ys (5 / 100) ≤ quantile ys (95 / 100) := by
  unfold quantile
  have hs : (List.insertionSort (· ≤ ·) ys).Sorted (· ≤ ·) :=
    List.sorted_insertionSort _ ys
  have hlen : (List.insertionSort (· ≤ ·) ys).length = ys.length :=
    (List.perm_insertionSort _ ys).length_eq
  have hn : (3:ℚ) ≤ (ys.length : ℚ) := by exact_mod_cast h3
  apply interpAt_mono _ hs
  · nlinarith
  · nlinarith
  · rw [hlen]; nlinarith

/-- C5 (amended): whenever the series has at least 3 points and the
z-score flag fires for some point (the code's precondition for clamping),
no `net_flow` value of the moderated series lies below the series'
pre-moderation 5th percentile or above its pre-moderation 95th
percentile.  Without a flagged point the moderator returns the series
unchanged, where values below the interpolated 5th percentile survive —
see the counterexample. -/
theorem C5_outlier_clamping (s : List DailyEntry) (t : ℚ)
    (h3 : 3 ≤ s.length) (hflag : hasOutlier s t = true) :
    ∀ e ∈ detect_outliers s t,
      quantile (seriesY s) (5 / 100) ≤ e.y ∧ e.y ≤ quantile (seriesY s) (95 / 100) := by
  intro e he
  have hlohi : quantile (seriesY s) (5 / 100) ≤ quantile (seriesY s) (95 / 100) := by
    apply quantile_5_le_95
    rw [seriesY, List.length_map]
    exact h3
  rw [detect_outliers, if_neg (not_lt.mpr h3), if_pos hflag] at he
  obtain ⟨e0, _, rfl⟩ := List.mem_map.mp he
  by_cases h1 : (if e0.y < quantile (seriesY s) (5 / 100)
      then quantile (seriesY s) (5 / 100) else e0.y) > quantile (seriesY s) (95 / 100)
  · constructor
    · show quantile (seriesY s) (5 / 100) ≤ (if _ > _ then _ else _)
      rw [if_pos h1]
      exact hlohi
    · show (if _ > _ then _ else _) ≤ quantile (seriesY s) (95 / 100)
      rw [if_pos h1]
  · constructor
    · show quantile (seriesY s) (5 / 100) ≤ (if _ > _ then _ else _)
      rw [if_neg h1]
      by_cases h2 : e0.y < quantile (seriesY s) (5 / 100)
      · rw [if_pos h2]
      · rw [if_neg h2]
        exact not_lt.mp h2
    · show (if _ > _ then _ else _) ≤ quantile (seriesY s) (95 / 100)
      rw [if_neg h1]
      exact not_lt.mp h1

/-- Series with no flagged z-score for the C5 counterexample: net flows
`[0, 1, 2]` (mean 1, sample variance 1, all squared deviations at most 1,
far below `threshold² · var = 9`). -/
def sC5c : List DailyEntry := [⟨0, 0, 0, 0⟩, ⟨1, 1, 1, 0⟩, ⟨2, 2, 2, 0⟩]

/-- C5 counterexample: the claim — that after moderation no net flow lies
below the pre-moderation 5th percentile or above the 95th — fails as
stated.  On the 3-point series `[0, 1, 2]` no z-score exceeds the
threshold, so the moderator returns the series unchanged, and the value
`0` lies strictly below the interpolated 5th percentile `1/10`. -/
theorem C5_outlier_counterexample :
    ¬ (∀ e ∈ detect_outliers sC5c 3,
        quantile (seriesY sC5c) (5 / 100) ≤ e.y
          ∧ e.y ≤ quantile (seriesY sC5c) (95 / 100)) := by
  intro hclaim
  have hflag : hasOutlier sC5c 3 = false := by
    norm_num [hasOutlier, seriesY, sC5c, listMean, sampleVar]
  have hid : detect_outliers sC5c 3 = sC5c := by
    rw [detect_outliers, if_neg (by norm_num [sC5c]), hflag]
    norm_num
  have h0 := (hclaim ⟨0, 0, 0, 0⟩ (by rw [hid]; exact List.mem_cons_self _ _)).1
  have hq : quantile (seriesY sC5c) (5 / 100) = 1 / 10 := by
    have hsorted : List.insertionSort (· ≤ ·) (seriesY sC5c) = [0, 1, 2] := by
      norm_num [seriesY, sC5c, List.insertionSort, List.orderedInsert]
    unfold quantile
    rw [hsorted]
    norm_num [interpAt, seriesY, sC5c]
  rw [hq] at h0
  norm_num at h0

/-- Series with a flagged outlier for the C5 witness: ten zero days and
one day of net flow 1.  Mean `1/11`, sample variance `1/11`; the last
point's squared deviation `(10/11)² = 100/121` exceeds
`3² · (1/11) = 99/121`, so its z-score exceeds the threshold 3. -/
def sC5w : List DailyEntry :=
  [⟨0, 0, 0, 0⟩, ⟨1, 0, 0, 0⟩, ⟨2, 0, 0, 0⟩, ⟨3, 0, 0, 0⟩, ⟨4, 0, 0, 0⟩,
   ⟨5, 0, 0, 0⟩, ⟨6, 0, 0, 0⟩, ⟨7, 0, 0, 0⟩, ⟨8, 0, 0, 0⟩, ⟨9, 0, 0, 0⟩,
   ⟨10, 1, 1, 0⟩]

/-- Witness for the amended C5: on `sC5w` the z-score flag fires, and
every moderated net flow lies between the pre-moderation 5th and 95th
percentiles. -/
theorem C5_outlier_clamping_witness :
    (detect_outliers sC5w 3).all (fun e =>
      decide (quantile (seriesY sC5w) (5 / 100) ≤ e.y
        ∧ e.y ≤ quantile (seriesY sC5w) (95 / 100))) = true := by
  have hflag : hasOutlier sC5w 3 = true := by
    norm_num [hasOutlier, seriesY, sC5w, listMean, sampleVar]
  rw [List.all_eq_true]
  intro e he
  rw [decide_eq_true_eq]
  exact C5_outlier_clamping sC5w 3 (by norm_num [sC5w]) hflag e he

/-! ### C9 — every category trend is stable -/

/-- Scaling preserves an already-stable trend: the reconciliation loop
either re-evaluates the trend to `stable` or leaves it unchanged. -/
theorem applyScaling_trend_stable (k : ℚ) (p : ℕ × CatForecast)
    (h : p.2.trend = Trend.stable) : (applyScaling k p).2.trend = Trend.stable := by
  cases hexp : p.2.is_expense with
  | false => rw [applyScaling_of_not_expense _ _ hexp]; exact h
  | true =>
    by_cases hc : |(p.2.predicted_average * k - p.2.historical_average)
        / p.2.historical_average| < 5 / 100 <;>
      simp [applyScaling, hexp, hc, h]

/-- Reconciliation either returns the table unchanged or maps the scaling
function over it. -/
theorem reconcile_cases (income? : Option ℚ) (fs : List (ℕ × CatForecast)) :
    reconcile income? fs = fs ∨ ∃ k, reconcile income? fs = fs.map (applyScaling k) := by
  cases income? with
  | none => exact Or.inl rfl
  | some inc =>
    by_cases h0 : inc = 0
    · exact Or.inl (by simp [reconcile, h0])
    · by_cases hemp : ((fs.filter fun p => p.2.is_expense).isEmpty : Bool)
      · exact Or.inl (by simp [reconcile, h0, hemp])
      · by_cases hover : inc * (90 / 100) < expensePredSum fs
        · exact Or.inr ⟨_, reconcile_over inc fs h0 hemp hover⟩
        · exact Or.inl (by simp [reconcile, h0, hemp, hover])

/-- Reconciliation never introduces a non-stable trend. -/
theorem reconcile_trend_stable (income? : Option ℚ) (fs : List (ℕ × CatForecast))
    (hstable : ∀ p ∈ fs, p.2.trend = Trend.stable) :
    ∀ q ∈ reconcile income? fs, q.2.trend = Trend.stable := by
  intro q hq
  rcases reconcile_cases income? fs with heq | ⟨k, heq⟩
  · rw [heq] at hq; exact hstable q hq
  · rw [heq] at hq
    obtain ⟨p, hpmem, rfl⟩ := List.mem_map.mp hq
    exact applyScaling_trend_stable k p (hstable p hpmem)

/-- Pre-reconciliation trend of a category with positive amounts: for any
horizon of at most 365 days the applied growth
`min(1 + (0.025/12)·m, 1 + 0.03·(m/12))` with `m = max(1, periods/30)`
stays strictly below the 5% threshold, so the trend is `stable`. -/
theorem categoryForecast_trend_stable (txns : List Txn) (periods : ℕ) (c : ℕ)
    (hper : periods ≤ 365)
    (hamt : ∀ t ∈ txns, 0 < t.amount)
    (hne : categoryTxns txns c ≠ []) :
    (categoryForecast txns periods c).trend = Trend.stable := by
  have hsub : ∀ t ∈ categoryTxns txns c, 0 < t.amount :=
    fun t ht => hamt t (List.mem_of_mem_filter ht)
  have hsum : 0 < ((categoryTxns txns c).map (·.amount)).sum := by
    apply List.sum_pos
    · intro x hx
      obtain ⟨t, ht, rfl⟩ := List.mem_map.mp hx
      exact hsub t ht
    · simpa using hne
  have htot : 0 < historicalTotal (categoryTxns txns c) := by
    unfold historicalTotal
    by_cases hexp : catIsExpense (categoryTxns txns c)
    · rw [if_pos hexp, abs_of_pos hsum]; exact hsum
    · rw [if_neg hexp]; exact hsum
  have hmonths : 0 < historicalMonths (categoryTxns txns c) :=
    lt_of_lt_of_le zero_lt_one (le_max_left 1 _)
  have hhist : 0 < historicalMonthlyAvg (categoryTxns txns c) := div_pos htot hmonths
  have hfm1 : 1 ≤ forecastMonths periods := le_max_left _ _
  have hfm2 : forecastMonths periods ≤ 73 / 6 := by
    apply max_le
    · norm_num
    · have hp : (periods : ℚ) ≤ 365 := by exact_mod_cast hper
      rw [div_le_iff₀ (by norm_num : (0:ℚ) < 30)]
      linarith
  have hab : 1 + 25 / 1000 / 12 * forecastMonths periods
      ≤ 1 + 3 / 100 * (forecastMonths periods / 12) := by
    nlinarith [hfm1]
  have hpred : predictedMonthlyAvg (categoryTxns txns c) periods
      = historicalMonthlyAvg (categoryTxns txns c)
        * (1 + 25 / 1000 / 12 * forecastMonths periods) := by
    unfold predictedMonthlyAvg
    exact min_eq_left (mul_le_mul_of_nonneg_left hab hhist.le)
  have hgrowth : growthRate (categoryTxns txns c) periods
      = 25 / 1000 / 12 * forecastMonths periods := by
    unfold growthRate
    rw [if_pos hhist, hpred]
    have hdist : historicalMonthlyAvg (categoryTxns txns c)
          * (1 + 25 / 1000 / 12 * forecastMonths periods)
          - historicalMonthlyAvg (categoryTxns txns c)
        = historicalMonthlyAvg (categoryTxns txns c)
          * (25 / 1000 / 12 * forecastMonths periods) := by ring
    rw [hdist, mul_div_cancel_left₀ _ hhist.ne']
  have hlow : 0 < growthRate (categoryTxns txns c) periods := by
    rw [hgrowth]; nlinarith [hfm1]
  have hup : growthRate (categoryTxns txns c) periods < 5 / 100 := by
    rw [hgrowth]; nlinarith [hfm2, hfm1]
  show trendOf (growthRate (categoryTxns txns c) periods) = Trend.stable
  unfold trendOf
  rw [if_neg (by push_neg; linarith), if_neg (by push_neg; linarith)]

/-- C9: for any horizon of at most 365 days (covering the supported
timeframes, which map to 90/180/365 days) and positive transaction
amounts (the schema invariant `amount > 0`), every category the
forecaster reports has a positive historical monthly average, the
conservative growth stays strictly under the 5% threshold, and the
reconciliation step only ever re-labels trends as `stable` — hence every
`CategoryForecast` in the returned mapping has trend `stable`. -/
theorem C9_all_trends_stable (txns : List Txn) (periods : ℕ) (income? : Option ℚ)
    (hper : periods ≤ 365) (hamt : ∀ t ∈ txns, 0 < t.amount) :
    ∀ p ∈ get_category_forecasts txns periods income?, p.2.trend = Trend.stable := by
  unfold get_category_forecasts
  apply reconcile_trend_stable
  intro p hp
  obtain ⟨c, _, hsome⟩ := List.mem_filterMap.mp hp
  by_cases hlen : (categoryTxns txns c).length < 7
  · rw [if_pos hlen] at hsome
    cases hsome
  · rw [if_neg hlen] at hsome
    obtain rfl := Option.some.inj hsome
    apply categoryForecast_trend_stable txns periods c hper hamt
    intro hnil
    rw [hnil] at hlen
    exact hlen (by norm_num)

/-- Seven expense transactions of one category for the C9 witness. -/
def txC9 : List Txn :=
  [⟨0, 10, TxnType.expense, some 0⟩, ⟨1, 10, TxnType.expense, some 0⟩,
   ⟨2, 10, TxnType.expense, some 0⟩, ⟨3, 10, TxnType.expense, some 0⟩,
   ⟨4, 10, TxnType.expense, some 0⟩, ⟨5, 10, TxnType.expense, some 0⟩,
   ⟨6, 10, TxnType.expense, some 0⟩]

/-- Witness for C9 at the largest supported horizon (`year_1`, 365 days)
with an income prediction supplied: every reported category trend is
`stable`. -/
theorem C9_all_trends_stable_witness :
    (get_category_forecasts txC9 (get_timeframe_days TimeframeEnum.year_1)
        (some 1000)).all (fun p => decide (p.2.trend = Trend.stable)) = true := by
  rw [List.all_eq_true]
  intro p hp
  rw [decide_eq_true_eq]
  exact C9_all_trends_stable txC9 (get_timeframe_days TimeframeEnum.year_1)
    (some 1000) (by norm_num [get_timeframe_days])
    (by intro t ht; fin_cases ht <;> norm_num) p hp

/-! ### C3 — gap-filled daily series -/

/-- A reindex lookup always carries the date it was asked for. -/
theorem reindexEntry_ds (entries : List DailyEntry) (d : ℤ) :
    (reindexEntry entries d).ds = d := by
  unfold reindexEntry
  cases hfind : entries.find? (fun e => decide (e.ds = d)) with
  | none => rfl
  | some e =>
    have h2 := List.find?_some hfind
    simp only [decide_eq_true_eq] at h2
    simpa using h2

/-- A reindex lookup of a date absent from the grouped frame yields the
zero-filled row. -/
theorem reindexEntry_of_not_mem (entries : List DailyEntry) (d : ℤ)
    (h : ∀ e ∈ entries, e.ds ≠ d) : reindexEntry entries d = ⟨d, 0, 0, 0⟩ := by
  unfold reindexEntry
  have hnone : entries.find? (fun e => decide (e.ds = d)) = none :=
    List.find?_eq_none.mpr fun e he => by simpa using h e he
  rw [hnone]

/-- Every date of the sorted grouped frame is the date of some
transaction. -/
theorem mem_sorted_grouped_ds (txns : List Txn) (e : DailyEntry)
    (he : e ∈ List.insertionSort (fun a b => a.ds ≤ b.ds) (groupedDaily txns)) :
    ∃ t ∈ txns, t.day = e.ds := by
  have hmem : e ∈ groupedDaily txns :=
    (List.perm_insertionSort (fun a b => a.ds ≤ b.ds) (groupedDaily txns)).subset he
  obtain ⟨d, hd, rfl⟩ := List.mem_map.mp hmem
  have hd2 : d ∈ txns.map (·.day) := List.mem_dedup.mp hd
  obtain ⟨t, ht, rfl⟩ := List.mem_map.mp hd2
  exact ⟨t, ht, rfl⟩

/-- Folding `min` over accumulator and elements all equal to a constant
yields that constant. -/
theorem foldl_min_const (ts : List Txn) (a c : ℤ)
    (hall : ∀ u ∈ ts, u.day = c) (ha : a = c) :
    ts.foldl (fun m u => min m u.day) a = c := by
  induction ts generalizing a with
  | nil => simpa using ha
  | cons u us ih =>
    have hu : u.day = c := hall u (List.mem_cons_self _ _)
    refine ih (min a u.day) (fun v hv => hall v (List.mem_cons_of_mem _ hv)) ?_
    rw [ha, hu, min_self]

/-- Folding `max` over accumulator and elements all equal to a constant
yields that constant. -/
theorem foldl_max_const (ts : List Txn) (a c : ℤ)
    (hall : ∀ u ∈ ts, u.day = c) (ha : a = c) :
    ts.foldl (fun m u => max m u.day) a = c := by
  induction ts generalizing a with
  | nil => simpa using ha
  | cons u us ih =>
    have hu : u.day = c := hall u (List.mem_cons_self _ _)
    refine ih (max a u.day) (fun v hv => hall v (List.mem_cons_of_mem _ hv)) ?_
    rw [ha, hu, max_self]

/-- A positional access into a mapped list is the function applied to the
underlying element. -/
theorem get_map_fin {α β : Type} (f : α → β) (l : List α) (i : ℕ)
    (h : i < (l.map f).length) :
    (l.map f).get ⟨i, h⟩ = f (l.get ⟨i, by simpa using h⟩) := by
  simp

/-- The full date range has one entry per day of the inclusive span. -/
theorem fullRange_length (txns : List Txn) :
    (fullRange txns).length = spanDays txns + 1 := by
  unfold fullRange
  rw [List.length_map, List.length_range]

/-- Entry `i` of the full date range is the day `min + i`. -/
theorem fullRange_get (txns : List Txn) (i : ℕ) (h : i < (fullRange txns).length) :
    (fullRange txns).get ⟨i, h⟩ = daysMin txns + (i : ℤ) := by
  simp [fullRange]

/-- C3: on any nonempty transaction list the preprocessor succeeds and
returns a series with exactly `spanDays + 1` entries — one per calendar
day of the inclusive range from the minimum to the maximum transaction
date — whose dates increase by exactly one day (`entry i` carries date
`min + i`), and in which every day of the range without a transaction
appears as a row with `net_flow = 0`, `income = 0` and `expense = 0`. -/
theorem C3_gap_filling (txns : List Txn) (hne : txns ≠ []) :
    ∃ s, preprocess_transaction_data txns = some s ∧
      s.length = spanDays txns + 1 ∧
      (∀ (i : ℕ) (h : i < s.length), (s.get ⟨i, h⟩).ds = daysMin txns + i) ∧
      (∀ (i : ℕ) (h : i < s.length),
        (∀ t ∈ txns, t.day ≠ daysMin txns + i) →
          s.get ⟨i, h⟩ = ⟨daysMin txns + i, 0, 0, 0⟩) := by
  by_cases hlen :
      1 < (List.insertionSort (fun a b => a.ds ≤ b.ds) (groupedDaily txns)).length
  · refine ⟨(fullRange txns).map (fun d =>
        reindexEntry (List.insertionSort (fun a b => a.ds ≤ b.ds) (groupedDaily txns)) d),
      ?_, ?_, ?_, ?_⟩
    · simp only [preprocess_transaction_data]
      rw [if_neg hne, if_pos hlen]
    · rw [List.length_map, fullRange_length]
    · intro i h
      rw [get_map_fin, fullRange_get]
      exact reindexEntry_ds _ _
    · intro i h hmiss
      rw [get_map_fin, fullRange_get]
      apply reindexEntry_of_not_mem
      intro e he hds
      obtain ⟨t, ht, hday⟩ := mem_sorted_grouped_ds txns e he
      exact hmiss t ht (by rw [hday, hds])
  · obtain ⟨u, us, hco⟩ := List.exists_cons_of_ne_nil hne
    have humem : u ∈ txns := by rw [hco]; exact List.mem_cons_self _ _
    have hds_ne : (txns.map (·.day)).dedup ≠ [] := by
      rw [Ne, List.dedup_eq_nil, List.map_eq_nil_iff]
      exact hne
    have hlen_ent :
        (List.insertionSort (fun a b => a.ds ≤ b.ds) (groupedDaily txns)).length
          = ((txns.map (·.day)).dedup).length := by
      rw [(List.perm_insertionSort _ _).length_eq]
      unfold groupedDaily
      rw [List.length_map]
    have hle1 : ((txns.map (·.day)).dedup).length = 1 := by
      have h1 : 0 < ((txns.map (·.day)).dedup).length := List.length_pos.mpr hds_ne
      omega
    obtain ⟨d0, hd0⟩ := List.length_eq_one.mp hle1
    have hall : ∀ t ∈ txns, t.day = d0 := by
      intro t ht
      have hmem : t.day ∈ (txns.map (·.day)).dedup :=
        List.mem_dedup.mpr (List.mem_map_of_mem _ ht)
      rw [hd0] at hmem
      simpa using hmem
    have hmin : daysMin txns = d0 := by
      rw [hco]
      show us.foldl (fun m u => min m u.day) u.day = d0
      refine foldl_min_const us u.day d0 (fun v hv => hall v ?_) (hall u humem)
      rw [hco]; exact List.mem_cons_of_mem _ hv
    have hmax : daysMax txns = d0 := by
      rw [hco]
      show us.foldl (fun m u => max m u.day) u.day = d0
      refine foldl_max_const us u.day d0 (fun v hv => hall v ?_) (hall u humem)
      rw [hco]; exact List.mem_cons_of_mem _ hv
    have hspan : spanDays txns = 0 := by
      unfold spanDays
      rw [hmin, hmax]
      simp
    have hent : List.insertionSort (fun a b => a.ds ≤ b.ds) (groupedDaily txns)
        = [mkDailyEntry txns d0] := by
      unfold groupedDaily
      rw [hd0]
      rfl
    refine ⟨[mkDailyEntry txns d0], ?_, ?_, ?_, ?_⟩
    · simp only [preprocess_transaction_data]
      rw [if_neg hne, if_neg hlen, hent]
    · rw [hspan]
      rfl
    · intro i h
      have hi : i = 0 := by
        have h1 : i < 1 := by simpa using h
        omega
      subst hi
      show (mkDailyEntry txns d0).ds = daysMin txns + ((0:ℕ) : ℤ)
      rw [hmin]
      simp [mkDailyEntry]
    · intro i h hmiss
      exfalso
      have hi : i = 0 := by
        have h1 : i < 1 := by simpa using h
        omega
      subst hi
      apply hmiss u humem
      rw [hall u humem, hmin]
      simp

/-- Two transactions three calendar days apart, with the middle day
empty, for the C3 witness. -/
def txC3 : List Txn := [⟨0, 10, TxnType.income, none⟩, ⟨2, 5, TxnType.expense, none⟩]

/-- Witness for C3: on `txC3` (days 0 and 2) the preprocessor succeeds,
the series spans the full inclusive range, and the transaction-free
middle day appears as a zero-filled row. -/
theorem C3_gap_filling_witness :
    (preprocess_transaction_data txC3).isSome = true
    ∧ ((preprocess_transaction_data txC3).getD []).length = spanDays txC3 + 1
    ∧ ((preprocess_transaction_data txC3).getD []).getD 1 ⟨0, 0, 0, 0⟩
        = ⟨daysMin txC3 + ((1:ℕ) : ℤ), 0, 0, 0⟩ := by
  obtain ⟨s, hs, hlen, _, hzero⟩ := C3_gap_filling txC3 (List.cons_ne_nil _ _)
  rw [hs]
  have hspan : spanDays txC3 = 2 := by decide
  have h1 : 1 < s.length := by
    rw [hlen, hspan]
    omega
  refine ⟨rfl, hlen, ?_⟩
  show s.getD 1 ⟨0, 0, 0, 0⟩ = _
  rw [getD_eq_get s ⟨0, 0, 0, 0⟩ 1 h1]
  exact hzero 1 h1 (by decide)
